import Mathlib

/-!
Shallow embedding of `src/main.py` (Shararamosh/ODBC_DB): a seeding script
that (re)creates a `department` and an `employee` table and fills them with
randomly generated, internally consistent records.

Modelling conventions:
* The database connection is modelled by a trace of persistence operations
  (`DbOp`) plus per-table identity counters (`DbState`); `SELECT @@IDENTITY`
  after an insert is modelled by handing out the table's next counter value.
* Python's `random` module is modelled by a stream of natural numbers
  (`PyRand`); `random.randint(a, b)` (inclusive on both ends) consumes one
  stream value `v` and returns `a + (v mod (b - a + 1))`.
* The external fake-data collaborator (`Faker`, seeded once at start-up) is
  modelled by a pair of deterministic functions from the call counter to
  strings (`FakeGen`), plus the counters in the program state.
* `textwrap.shorten` is modelled from its documented contract, see `shorten`.
-/

namespace ODBC

/-! ### The external `textwrap.shorten` collaborator -/

/-- Splitting of a character list at every character satisfying `p`: the
pieces strictly between separators, exactly as `String.split` produces them
(re-implemented structurally so that the kernel can evaluate it). -/
def splitChars (p : Char → Bool) : List Char → List (List Char)
  | [] => [[]]
  | c :: cs =>
      if p c then [] :: splitChars p cs
      else
        match splitChars p cs with
        | [] => [[c]]
        | w :: ws => (c :: w) :: ws

/-- Python's `text.strip().split()`: split on whitespace runs, no empty words.
(The ASCII whitespace characters recognised by `Char.isWhitespace` are used.) -/
def pyWords (s : String) : List String :=
  ((splitChars Char.isWhitespace s.data).map String.mk).filter (fun w => w ≠ "")

/-- `leadJoin ws` is the words of `ws` each preceded by a single space. -/
def leadJoin : List String → String
  | [] => ""
  | w :: ws => " " ++ w ++ leadJoin ws

/-- Python's `' '.join(ws)`. -/
def joinWords : List String → String
  | [] => ""
  | w :: ws => w ++ leadJoin ws

/-- Greedy single-line filling: starting from the non-empty line `cur`, append
further words (each costing one separating space) while the line still fits in
`width`. -/
def fitWords (width : Nat) : String → List String → String
  | cur, [] => cur
  | cur, w :: ws =>
      if cur.length + 1 + w.length ≤ width then fitWords width (cur ++ " " ++ w) ws
      else cur

/-- Drop words from the end of `ws` until the remaining words, joined by single
spaces, fit in `width`. -/
def dropWordsToFit (width : Nat) : List String → String
  | [] => ""
  | w :: ws => if w.length ≤ width then fitWords width w ws else ""

/-- Models the external `textwrap.shorten(text, width, placeholder="")`
collaborator used by both entity constructors, following its documented
contract: first all whitespace runs in `text` are collapsed to single spaces
(and leading/trailing whitespace is stripped); if the result fits in `width`
it is returned; otherwise enough words are dropped from the end so that the
remaining words (plus the empty placeholder) fit in `width`.  (The
character-level long-word breaking refinement of the underlying `TextWrapper`
is not modelled; every property proved below also holds of it.) -/
def shorten (text : String) (width : Nat) : String :=
  let norm := joinWords (pyWords text)
  if norm.length ≤ width then norm else dropWordsToFit width (pyWords text)

/-! ### Persistence layer -/

/-- One parameterised statement executed against the database connection. -/
inductive DbOp where
  | insertDepartment (name : String)
  | updateDepartment (name : String) (id : Nat)
  | insertEmployee (departmentId : Option Nat) (chiefId : Option Nat)
      (name : String) (salary : Int)
  | updateEmployee (departmentId : Option Nat) (chiefId : Option Nat)
      (name : String) (salary : Int) (id : Nat)
  | selectIdentity
  | commit
deriving DecidableEq

/-- The identity counters of the two tables (`IDENTITY` columns). -/
structure DbState where
  deptNext : Nat
  empNext : Nat
deriving DecidableEq

/-- The state of Python's `random` module: a stream of raw draws. -/
structure PyRand where
  stream : Nat → Nat
  pos : Nat

/-- `random.randint(lo, hi)`: uniform over the INCLUSIVE range `[lo, hi]`,
modelled as `lo + (v mod (hi - lo + 1))` for the next raw stream value `v`. -/
def randint (lo hi : Int) (r : PyRand) : Int × PyRand :=
  (lo + ((r.stream r.pos % (hi - lo + 1).toNat : Nat) : Int),
   { r with pos := r.pos + 1 })

/-- The fake-data collaborator after `Faker.seed(73)`: `name n` and `phrase n`
are the `n`-th results of `fake.unique.name()` / `fake.unique.catch_phrase()`,
deterministic functions of the call counter. -/
structure FakeGen where
  name : Nat → String
  phrase : Nat → String

/-- The whole mutable program state: database, `random` module state and the
fake-data call counters, plus the trace of executed statements. -/
structure St where
  db : DbState
  rand : PyRand
  names : Nat
  phrases : Nat
  trace : List DbOp

/-! ### `Department` -/

/-- Fields of a `Department` instance (`id` is `none` while transient). -/
structure Department where
  name : String
  id : Option Nat
deriving DecidableEq

/-- `Department.save`: insert (and capture the generated identity) when
`self.id is None`, otherwise update the row keyed by `self.id`; commit. -/
def Department.save (d : Department) (s : St) : Department × St :=
  match d.id with
  | none =>
      ({ d with id := some s.db.deptNext },
       { s with
          db := { s.db with deptNext := s.db.deptNext + 1 },
          trace := s.trace ++
            [DbOp.insertDepartment d.name, DbOp.selectIdentity, DbOp.commit] })
  | some i =>
      (d, { s with trace := s.trace ++ [DbOp.updateDepartment d.name i, DbOp.commit] })

/-- `Department.__init__`: truncate the name to 100 characters and
immediately `save()` (auto-save on construction). -/
def Department.init (name : String) (s : St) : Department × St :=
  Department.save { name := shorten name 100, id := none } s

/-! ### `Employee` -/

/-- Fields of an `Employee` instance; `chief` holds the (immutable snapshot of
the) referenced chief `Employee` object, as the Python object reference does. -/
inductive Employee : Type where
  | mk (department : Department) (chief : Option Employee) (name : String)
      (salary : Int) (id : Option Nat) : Employee

def Employee.department : Employee → Department
  | .mk d _ _ _ _ => d

def Employee.chief : Employee → Option Employee
  | .mk _ c _ _ _ => c

def Employee.name : Employee → String
  | .mk _ _ n _ _ => n

def Employee.salary : Employee → Int
  | .mk _ _ _ sal _ => sal

def Employee.id : Employee → Option Nat
  | .mk _ _ _ _ i => i

def Employee.withId : Employee → Option Nat → Employee
  | .mk d c n sal _, i => .mk d c n sal i

/-- `self.chief.id if self.chief is not None else None`. -/
def chiefIdOf : Option Employee → Option Nat
  | some c => c.id
  | none => none

/-- `Employee.save`: insert both foreign keys, name and salary (and capture the
generated identity) when `self.id is None`, otherwise update all four fields
keyed by `self.id`; commit. -/
def Employee.save (e : Employee) (s : St) : Employee × St :=
  match e.id with
  | none =>
      (e.withId (some s.db.empNext),
       { s with
          db := { s.db with empNext := s.db.empNext + 1 },
          trace := s.trace ++
            [DbOp.insertEmployee e.department.id (chiefIdOf e.chief) e.name e.salary,
             DbOp.selectIdentity, DbOp.commit] })
  | some i =>
      (e, { s with trace := s.trace ++
            [DbOp.updateEmployee e.department.id (chiefIdOf e.chief) e.name e.salary i,
             DbOp.commit] })

/-- `Employee.__init__`: store department, chief, truncated name and salary,
then immediately `save()`. -/
def Employee.init (department : Department) (chief : Option Employee)
    (name : String) (salary : Int) (s : St) : Employee × St :=
  Employee.save (Employee.mk department chief (shorten name 100) salary none) s

/-- Out-of-range list-access fallback (never reached on in-range indices). -/
def departmentDefault : Department := { name := "", id := none }

/-- Out-of-range list-access fallback (never reached on in-range indices). -/
def employeeDefault : Employee := .mk departmentDefault none "" 0 none

/-! ### Generators -/

/-- The loop body of `get_random_departments`: draw the next unique
catch-phrase and construct (hence save) a `Department` from it. -/
def stepDepartment (fake : FakeGen) (s : St) : Department × St :=
  Department.init (fake.phrase s.phrases) { s with phrases := s.phrases + 1 }

/-- `for _ in range(amount)` of `get_random_departments`. -/
def get_random_departments_loop (fake : FakeGen) :
    Nat → List Department → St → List Department × St
  | 0, departments, s => (departments, s)
  | n + 1, departments, s =>
      let p := stepDepartment fake s
      get_random_departments_loop fake n (departments ++ [p.1]) p.2

/-- `get_random_departments(amount)`: `range` of a negative amount is empty. -/
def get_random_departments (fake : FakeGen) (amount : Int) (s : St) :
    List Department × St :=
  get_random_departments_loop fake amount.toNat [] s

/-- `chief_pos = random.randint(-1, len(employees) - 1) if len(employees) > 0
else -1`. -/
def chiefPos (employees : List Employee) (r : PyRand) : Int × PyRand :=
  if employees.length > 0 then randint (-1) ((employees.length : Int) - 1) r
  else (-1, r)

/-- `employees[chief_pos] if chief_pos > -1 else None`. -/
def chiefOf (employees : List Employee) (pos : Int) : Option Employee :=
  if pos > -1 then some (employees.getD pos.toNat employeeDefault) else none

/-- The loop body of `get_random_employees`: draw a department position, a
chief position, the next unique name and a salary, then construct (hence save)
the `Employee` from them. -/
def stepEmployee (fake : FakeGen) (departments : List Department)
    (employees : List Employee) (s : St) : Employee × St :=
  let dp := randint 0 ((departments.length : Int) - 1) s.rand
  let cp := chiefPos employees dp.2
  let sal := randint 20000 100001 cp.2
  Employee.init (departments.getD dp.1.toNat departmentDefault)
    (chiefOf employees cp.1) (fake.name s.names) sal.1
    { s with rand := sal.2, names := s.names + 1 }

/-- `for _ in range(amount)` of `get_random_employees`; each constructed
employee is appended so later iterations may select it as a chief. -/
def get_random_employees_loop (fake : FakeGen) (departments : List Department) :
    Nat → List Employee → St → List Employee × St
  | 0, employees, s => (employees, s)
  | n + 1, employees, s =>
      let p := stepEmployee fake departments employees s
      get_random_employees_loop fake departments n (employees ++ [p.1]) p.2

/-- `get_random_employees(amount, departments)`: returns the empty list
immediately when `len(departments) < 1`. -/
def get_random_employees (fake : FakeGen) (amount : Int)
    (departments : List Department) (s : St) : List Employee × St :=
  if departments.length < 1 then ([], s)
  else get_random_employees_loop fake departments amount.toNat [] s

/-- `create_fake_data(departments_amount, employees_amount)`. -/
def create_fake_data (fake : FakeGen) (departments_amount employees_amount : Int)
    (s : St) : (List Department × List Employee) × St :=
  let p := get_random_departments fake departments_amount s
  let q := get_random_employees fake employees_amount p.1 p.2
  ((p.1, q.1), q.2)

/-! ### Lemmas about the `shorten` model -/

theorem fitWords_length (width : Nat) :
    ∀ (ws : List String) (cur : String), cur.length ≤ width →
      (fitWords width cur ws).length ≤ width
  | [], _, h => h
  | w :: ws, cur, h => by
      unfold fitWords
      split
      · refine fitWords_length width ws _ ?_
        rw [String.length_append, String.length_append]
        simpa using ‹cur.length + 1 + w.length ≤ width›
      · exact h

theorem fitWords_prefix (width : Nat) :
    ∀ (ws : List String) (cur : String),
      ∃ t, cur ++ leadJoin ws = fitWords width cur ws ++ t
  | [], cur => ⟨"", by simp [fitWords, leadJoin, String.append_empty]⟩
  | w :: ws, cur => by
      unfold fitWords
      split
      · obtain ⟨t, ht⟩ := fitWords_prefix width ws (cur ++ " " ++ w)
        refine ⟨t, ?_⟩
        rw [leadJoin, ← ht]
        simp [String.append_assoc]
      · exact ⟨leadJoin (w :: ws), rfl⟩

theorem dropWordsToFit_length (width : Nat) :
    ∀ ws : List String, (dropWordsToFit width ws).length ≤ width
  | [] => by simp [dropWordsToFit]
  | w :: ws => by
      simp only [dropWordsToFit]
      split
      · exact fitWords_length width ws w ‹_›
      · simp

theorem dropWordsToFit_prefix (width : Nat) :
    ∀ ws : List String, ∃ t, joinWords ws = dropWordsToFit width ws ++ t
  | [] => ⟨"", by simp [dropWordsToFit, joinWords, String.empty_append]⟩
  | w :: ws => by
      simp only [dropWordsToFit, joinWords]
      split
      · exact fitWords_prefix width ws w
      · exact ⟨w ++ leadJoin ws, (String.empty_append _).symm⟩

/-- The stored name never exceeds the width. -/
theorem shorten_length (text : String) (width : Nat) :
    (shorten text width).length ≤ width := by
  simp only [shorten]
  split
  · assumption
  · exact dropWordsToFit_length width _

/-- The stored name is a prefix of the whitespace-collapsed input: no
truncation marker is ever appended. -/
theorem shorten_prefix (text : String) (width : Nat) :
    ∃ t, joinWords (pyWords text) = shorten text width ++ t := by
  simp only [shorten]
  split
  · exact ⟨"", (String.append_empty _).symm⟩
  · exact dropWordsToFit_prefix width _

/-- An input that is already whitespace-collapsed and fits is kept unchanged. -/
theorem shorten_of_normalized (text : String) (width : Nat)
    (h1 : joinWords (pyWords text) = text) (h2 : text.length ≤ width) :
    shorten text width = text := by
  simp only [shorten, h1, if_pos h2]

/-! ### Lemmas about `randint` -/

theorem randint_range (lo hi : Int) (r : PyRand) (h : lo ≤ hi) :
    lo ≤ (randint lo hi r).1 ∧ (randint lo hi r).1 ≤ hi := by
  have hcast : ((hi - lo + 1).toNat : Int) = hi - lo + 1 :=
    Int.toNat_of_nonneg (by omega)
  have h1 : r.stream r.pos % (hi - lo + 1).toNat < (hi - lo + 1).toNat :=
    Nat.mod_lt _ (by omega)
  have h2 : ((r.stream r.pos % (hi - lo + 1).toNat : Nat) : Int) < hi - lo + 1 := by
    rw [← hcast]; exact_mod_cast h1
  have h3 : (0 : Int) ≤ ((r.stream r.pos % (hi - lo + 1).toNat : Nat) : Int) :=
    Int.ofNat_nonneg _
  simp only [randint]
  omega

/-- Every value of the inclusive range `[lo, hi]` is a possible `randint`
outcome. -/
theorem randint_surj (lo hi t : Int) (h1 : lo ≤ t) (h2 : t ≤ hi) :
    ∃ r : PyRand, (randint lo hi r).1 = t := by
  refine ⟨⟨fun _ => (t - lo).toNat, 0⟩, ?_⟩
  simp only [randint]
  rw [Nat.mod_eq_of_lt (by omega)]
  have : ((t - lo).toNat : Int) = t - lo := Int.toNat_of_nonneg (by omega)
  omega

/-! ### Accessor lemmas -/

@[simp] theorem Employee.department_mk (d c n sal i) :
    (Employee.mk d c n sal i).department = d := rfl

@[simp] theorem Employee.chief_mk (d c n sal i) :
    (Employee.mk d c n sal i).chief = c := rfl

@[simp] theorem Employee.name_mk (d c n sal i) :
    (Employee.mk d c n sal i).name = n := rfl

@[simp] theorem Employee.salary_mk (d c n sal i) :
    (Employee.mk d c n sal i).salary = sal := rfl

@[simp] theorem Employee.id_mk (d c n sal i) :
    (Employee.mk d c n sal i).id = i := rfl

/-! ### One iteration of the employee generator -/

theorem stepEmployee_id (fake : FakeGen) (deps : List Department)
    (acc : List Employee) (s : St) :
    (stepEmployee fake deps acc s).1.id = some s.db.empNext := rfl

theorem stepEmployee_empNext (fake : FakeGen) (deps : List Department)
    (acc : List Employee) (s : St) :
    (stepEmployee fake deps acc s).2.db.empNext = s.db.empNext + 1 := rfl

theorem stepEmployee_names (fake : FakeGen) (deps : List Department)
    (acc : List Employee) (s : St) :
    (stepEmployee fake deps acc s).2.names = s.names + 1 := rfl

theorem stepEmployee_phrases (fake : FakeGen) (deps : List Department)
    (acc : List Employee) (s : St) :
    (stepEmployee fake deps acc s).2.phrases = s.phrases := rfl

theorem stepEmployee_name (fake : FakeGen) (deps : List Department)
    (acc : List Employee) (s : St) :
    (stepEmployee fake deps acc s).1.name = shorten (fake.name s.names) 100 := rfl

theorem stepEmployee_salary (fake : FakeGen) (deps : List Department)
    (acc : List Employee) (s : St) :
    (stepEmployee fake deps acc s).1.salary =
      (randint 20000 100001
        (chiefPos acc ((randint 0 ((deps.length : Int) - 1) s.rand).2)).2).1 := rfl

theorem stepEmployee_chief (fake : FakeGen) (deps : List Department)
    (acc : List Employee) (s : St) :
    (stepEmployee fake deps acc s).1.chief =
      chiefOf acc (chiefPos acc ((randint 0 ((deps.length : Int) - 1) s.rand).2)).1 := rfl

theorem stepEmployee_department (fake : FakeGen) (deps : List Department)
    (acc : List Employee) (s : St) :
    (stepEmployee fake deps acc s).1.department =
      deps.getD ((randint 0 ((deps.length : Int) - 1) s.rand).1).toNat
        departmentDefault := rfl

theorem chiefPos_nil (r : PyRand) : (chiefPos [] r).1 = -1 := rfl

theorem chiefPos_range (employees : List Employee) (r : PyRand)
    (h : employees ≠ []) :
    -1 ≤ (chiefPos employees r).1 ∧
      (chiefPos employees r).1 ≤ (employees.length : Int) - 1 := by
  have hlen : 0 < employees.length := List.length_pos.mpr h
  unfold chiefPos
  rw [if_pos hlen]
  exact randint_range _ _ _ (by omega)

theorem chiefOf_neg_one (employees : List Employee) (pos : Int) (h : pos = -1) :
    chiefOf employees pos = none := by
  simp [chiefOf, h]

theorem chiefOf_nonneg (employees : List Employee) (pos : Int)
    (h0 : 0 ≤ pos) (h : pos.toNat < employees.length) :
    chiefOf employees pos = some employees[pos.toNat] := by
  unfold chiefOf
  rw [if_pos (by omega), List.getD_eq_getElem _ _ h]

theorem stepEmployee_chief_nil (fake : FakeGen) (deps : List Department) (s : St) :
    (stepEmployee fake deps [] s).1.chief = none := rfl

/-- The chief of a freshly constructed employee is absent or one of the
previously generated employees. -/
theorem stepEmployee_chief_cases (fake : FakeGen) (deps : List Department)
    (acc : List Employee) (s : St) :
    (stepEmployee fake deps acc s).1.chief = none ∨
      ∃ j, ∃ hj : j < acc.length,
        (stepEmployee fake deps acc s).1.chief = some acc[j] := by
  rw [stepEmployee_chief]
  rcases eq_or_ne acc [] with h | h
  · subst h
    exact Or.inl rfl
  · have hr := chiefPos_range acc ((randint 0 ((deps.length : Int) - 1) s.rand).2) h
    set cp := (chiefPos acc ((randint 0 ((deps.length : Int) - 1) s.rand).2)).1 with hcp
    by_cases hc : cp > -1
    · have hlt : cp.toNat < acc.length := by omega
      exact Or.inr ⟨cp.toNat, hlt, by rw [chiefOf_nonneg acc cp (by omega) hlt]⟩
    · exact Or.inl (by unfold chiefOf; rw [if_neg hc])

theorem stepEmployee_department_mem (fake : FakeGen) (deps : List Department)
    (acc : List Employee) (s : St) (hd : deps ≠ []) :
    (stepEmployee fake deps acc s).1.department ∈ deps := by
  rw [stepEmployee_department]
  have hlen : 0 < deps.length := List.length_pos.mpr hd
  have hr := randint_range 0 ((deps.length : Int) - 1) s.rand (by omega)
  have h : ((randint 0 ((deps.length : Int) - 1) s.rand).1).toNat < deps.length := by
    omega
  rw [List.getD_eq_getElem _ _ h]
  exact List.getElem_mem h

theorem stepEmployee_salary_range (fake : FakeGen) (deps : List Department)
    (acc : List Employee) (s : St) :
    20000 ≤ (stepEmployee fake deps acc s).1.salary ∧
      (stepEmployee fake deps acc s).1.salary ≤ 100001 := by
  rw [stepEmployee_salary]
  exact randint_range _ _ _ (by omega)

/-! ### The employee-generator loop invariant -/

/-- Structural invariants of the employees generated so far: the `i`-th
employee carries the identity `base + i`, belongs to one of the given
departments, has its salary within the `randint` bounds, and its chief, if
present, is an earlier element of the list. -/
def GoodEmployees (departments : List Department) (base : Nat)
    (es : List Employee) : Prop :=
  ∀ i, ∀ h : i < es.length,
    es[i].id = some (base + i) ∧
    es[i].department ∈ departments ∧
    (20000 ≤ es[i].salary ∧ es[i].salary ≤ 100001) ∧
    ∀ c, es[i].chief = some c → ∃ j, ∃ hj : j < es.length, j < i ∧ es[j] = c

theorem GoodEmployees_nil (departments : List Department) (base : Nat) :
    GoodEmployees departments base [] := by
  intro i h
  simp at h

theorem GoodEmployees_append (departments : List Department) (base : Nat)
    (es : List Employee) (e : Employee)
    (hg : GoodEmployees departments base es)
    (hid : e.id = some (base + es.length))
    (hdept : e.department ∈ departments)
    (hsal : 20000 ≤ e.salary ∧ e.salary ≤ 100001)
    (hchief : e.chief = none ∨ ∃ j, ∃ hj : j < es.length, e.chief = some es[j]) :
    GoodEmployees departments base (es ++ [e]) := by
  intro i h
  have hlen : (es ++ [e]).length = es.length + 1 := by simp
  by_cases hi : i < es.length
  · have hget : (es ++ [e])[i] = es[i] := List.getElem_append_left hi
    obtain ⟨h1, h2, h3, h4⟩ := hg i hi
    rw [hget]
    refine ⟨h1, h2, h3, ?_⟩
    intro c hc
    obtain ⟨j, hj, hji, hjc⟩ := h4 c hc
    exact ⟨j, by omega, hji, by rw [List.getElem_append_left hj]; exact hjc⟩
  · have hieq : i = es.length := by omega
    subst hieq
    have hget : (es ++ [e])[es.length] = e :=
      List.getElem_concat_length es e es.length rfl (by simp)
    rw [hget]
    refine ⟨hid, hdept, hsal, ?_⟩
    intro c hc
    rcases hchief with hn | ⟨j, hj, hjc⟩
    · rw [hn] at hc; exact absurd hc (by simp)
    · rw [hjc] at hc
      refine ⟨j, by omega, hj, ?_⟩
      rw [List.getElem_append_left hj]
      exact (Option.some.injEq _ _ ▸ hc :)

theorem employees_loop_good (fake : FakeGen) (deps : List Department)
    (hd : deps ≠ []) :
    ∀ (n : Nat) (acc : List Employee) (s : St) (base : Nat),
      s.db.empNext = base + acc.length →
      GoodEmployees deps base acc →
      GoodEmployees deps base (get_random_employees_loop fake deps n acc s).1 := by
  intro n
  induction n with
  | zero => intro acc s base _ hg; exact hg
  | succ n ih =>
      intro acc s base hb hg
      show GoodEmployees deps base
        (get_random_employees_loop fake deps n
          (acc ++ [(stepEmployee fake deps acc s).1])
          (stepEmployee fake deps acc s).2).1
      apply ih
      · rw [stepEmployee_empNext, hb]
        simp [Nat.add_assoc]
      · refine GoodEmployees_append deps base acc _ hg ?_ ?_ ?_ ?_
        · rw [stepEmployee_id, hb]
        · exact stepEmployee_department_mem _ _ _ _ hd
        · exact stepEmployee_salary_range _ _ _ _
        · exact stepEmployee_chief_cases fake deps acc s

/-- The full generator establishes the invariant, starting from the current
employee-identity counter. -/
theorem get_random_employees_good (fake : FakeGen) (amount : Int)
    (deps : List Department) (s : St) :
    GoodEmployees deps s.db.empNext (get_random_employees fake amount deps s).1 := by
  unfold get_random_employees
  split
  · exact GoodEmployees_nil deps s.db.empNext
  · have hd : deps ≠ [] := List.ne_nil_of_length_pos (by omega)
    exact employees_loop_good fake deps hd amount.toNat [] s s.db.empNext
      (by simp) (GoodEmployees_nil deps s.db.empNext)

/-! ### The department generator -/

theorem stepDepartment_id (fake : FakeGen) (s : St) :
    (stepDepartment fake s).1.id = some s.db.deptNext := rfl

theorem stepDepartment_name (fake : FakeGen) (s : St) :
    (stepDepartment fake s).1.name = shorten (fake.phrase s.phrases) 100 := rfl

theorem stepDepartment_phrases (fake : FakeGen) (s : St) :
    (stepDepartment fake s).2.phrases = s.phrases + 1 := rfl

theorem stepDepartment_names (fake : FakeGen) (s : St) :
    (stepDepartment fake s).2.names = s.names := rfl

theorem departments_loop_some (fake : FakeGen) :
    ∀ (n : Nat) (acc : List Department) (s : St),
      (∀ d ∈ acc, d.id.isSome) →
      ∀ d ∈ (get_random_departments_loop fake n acc s).1, d.id.isSome := by
  intro n
  induction n with
  | zero => intro acc s h; exact h
  | succ n ih =>
      intro acc s h
      apply ih
      intro d hd
      rcases List.mem_append.mp hd with h1 | h1
      · exact h d h1
      · rw [List.mem_singleton.mp h1, stepDepartment_id]
        rfl

/-- Every generated department carries an identity (auto-save on construct). -/
theorem get_random_departments_some (fake : FakeGen) (amount : Int) (s : St) :
    ∀ d ∈ (get_random_departments fake amount s).1, d.id.isSome :=
  departments_loop_some fake amount.toNat [] s (by simp)

/-! ### Name sequences and counters: the generated names depend only on the
fake-data collaborator and its call counters, never on the `random` stream -/

theorem departments_loop_names (fake : FakeGen) :
    ∀ (n : Nat) (acc : List Department) (s : St),
      (get_random_departments_loop fake n acc s).1.map Department.name =
        acc.map Department.name ++
          (List.range n).map (fun k => shorten (fake.phrase (s.phrases + k)) 100) := by
  intro n
  induction n with
  | zero => intro acc s; simp [get_random_departments_loop]
  | succ n ih =>
      intro acc s
      show (get_random_departments_loop fake n
          (acc ++ [(stepDepartment fake s).1]) (stepDepartment fake s).2).1.map
            Department.name = _
      rw [ih]
      simp [stepDepartment_phrases, stepDepartment_name, List.range_succ_eq_map,
        List.map_map, Function.comp_def, Nat.add_comm, Nat.add_assoc, Nat.add_left_comm]

theorem departments_loop_length (fake : FakeGen) :
    ∀ (n : Nat) (acc : List Department) (s : St),
      (get_random_departments_loop fake n acc s).1.length = acc.length + n := by
  intro n
  induction n with
  | zero => intro acc s; rfl
  | succ n ih =>
      intro acc s
      show (get_random_departments_loop fake n
          (acc ++ [(stepDepartment fake s).1]) (stepDepartment fake s).2).1.length = _
      rw [ih]
      simp
      omega

theorem departments_loop_snd_names (fake : FakeGen) :
    ∀ (n : Nat) (acc : List Department) (s : St),
      (get_random_departments_loop fake n acc s).2.names = s.names := by
  intro n
  induction n with
  | zero => intro acc s; rfl
  | succ n ih =>
      intro acc s
      show (get_random_departments_loop fake n
          (acc ++ [(stepDepartment fake s).1]) (stepDepartment fake s).2).2.names = _
      rw [ih, stepDepartment_names]

theorem get_random_departments_names (fake : FakeGen) (amount : Int) (s : St) :
    (get_random_departments fake amount s).1.map Department.name =
      (List.range amount.toNat).map
        (fun k => shorten (fake.phrase (s.phrases + k)) 100) := by
  unfold get_random_departments
  rw [departments_loop_names]
  simp

theorem get_random_departments_length (fake : FakeGen) (amount : Int) (s : St) :
    (get_random_departments fake amount s).1.length = amount.toNat := by
  unfold get_random_departments
  rw [departments_loop_length]
  simp

theorem get_random_departments_snd_names (fake : FakeGen) (amount : Int) (s : St) :
    (get_random_departments fake amount s).2.names = s.names :=
  departments_loop_snd_names fake amount.toNat [] s

theorem employees_loop_names (fake : FakeGen) (deps : List Department) :
    ∀ (n : Nat) (acc : List Employee) (s : St),
      (get_random_employees_loop fake deps n acc s).1.map Employee.name =
        acc.map Employee.name ++
          (List.range n).map (fun k => shorten (fake.name (s.names + k)) 100) := by
  intro n
  induction n with
  | zero => intro acc s; simp [get_random_employees_loop]
  | succ n ih =>
      intro acc s
      show (get_random_employees_loop fake deps n
          (acc ++ [(stepEmployee fake deps acc s).1])
          (stepEmployee fake deps acc s).2).1.map Employee.name = _
      rw [ih]
      simp [stepEmployee_names, stepEmployee_name, List.range_succ_eq_map,
        List.map_map, Function.comp_def, Nat.add_comm, Nat.add_assoc, Nat.add_left_comm]

/-! ### `create_tables` (schema reset) with an explicit failure oracle

The drop/create DDL calls go to the external database; which of them raises is
outside the program's control, so it is modelled by an oracle assigning each
of the four table operations an optional exception message.  The embedding
reproduces the handler structure of the source: each `drop_table` call is
wrapped in `try/except` with `logging.warning(e)`, while the `create_table`
calls (like every insert/update in `save`) have no handler, so their exception
aborts the function and is returned unmodified. -/

inductive TableOp where
  | dropEmployeeTable
  | dropDepartmentTable
  | createDepartmentTable
  | createEmployeeTable
deriving DecidableEq

/-- Which table operations fail, and with which exception message. -/
structure Oracle where
  dropEmployee : Option String
  dropDepartment : Option String
  createDepartment : Option String
  createEmployee : Option String

/-- Observable events of a `create_tables` run: an operation being attempted,
or a warning being logged for a caught drop failure. -/
inductive Event where
  | attempted (op : TableOp)
  | warned (msg : String)
deriving DecidableEq

/-- Warning events produced by one `try/except`-wrapped drop call. -/
def warnOf : Option String → List Event
  | some m => [Event.warned m]
  | none => []

/-- `create_tables()`: try to drop the employee table then the department
table, logging (not propagating) a failure of either; then unconditionally
create the department table and then the employee table, whose failures abort
the run and surface unmodified.  Returns the event log and the propagated
exception, if any. -/
def create_tables (o : Oracle) : List Event × Option String :=
  let e2 := [Event.attempted TableOp.dropEmployeeTable] ++ warnOf o.dropEmployee ++
    [Event.attempted TableOp.dropDepartmentTable] ++ warnOf o.dropDepartment
  match o.createDepartment with
  | some m => (e2 ++ [Event.attempted TableOp.createDepartmentTable], some m)
  | none =>
      match o.createEmployee with
      | some m => (e2 ++ [Event.attempted TableOp.createDepartmentTable,
                    Event.attempted TableOp.createEmployeeTable], some m)
      | none => (e2 ++ [Event.attempted TableOp.createDepartmentTable,
                    Event.attempted TableOp.createEmployeeTable], none)

/-- `Department.save` when the underlying execute raises: the source wraps no
handler around it, so the exception propagates to the caller unmodified. -/
def Department.saveF (err : Option String) (d : Department) (s : St) :
    Except String (Department × St) :=
  match err with
  | some m => Except.error m
  | none => Except.ok (Department.save d s)

/-- `Employee.save` when the underlying execute raises: the source wraps no
handler around it, so the exception propagates to the caller unmodified. -/
def Employee.saveF (err : Option String) (e : Employee) (s : St) :
    Except String (Employee × St) :=
  match err with
  | some m => Except.error m
  | none => Except.ok (Employee.save e s)

/-! ### Concrete values for witness runs -/

/-- Concrete fake-data collaborator for witness runs. -/
def wFake : FakeGen := { name := fun _ => "w", phrase := fun _ => "p" }

/-- Concrete start state whose raw `random` stream is constantly `1`. -/
def wSt : St :=
  { db := { deptNext := 1, empNext := 1 },
    rand := { stream := fun _ => 1, pos := 0 },
    names := 0, phrases := 0, trace := [] }

/-- One persisted department to seed witness runs of the employee generator. -/
def wDeps : List Department := [{ name := "d", id := some 5 }]

/-- A concrete two-employee generator run (the second employee gets a chief). -/
def wEs : List Employee := (get_random_employees wFake 2 wDeps wSt).1

/-- The first employee of `wEs`, the chief of the second. -/
def wChief : Employee := wEs.getD 0 employeeDefault

/-- Concrete start state whose raw `random` stream is constantly `80001`,
driving the salary draw to the upper bound. -/
def cSt : St :=
  { db := { deptNext := 1, empNext := 1 },
    rand := { stream := fun _ => 80001, pos := 0 },
    names := 0, phrases := 0, trace := [] }

/-! ### Claim theorems -/

/-- C1: for every run of the employee generator, every generated employee
with a chief `c` has `c` equal to an earlier-created employee of the run whose
identity was already assigned (saved) before the employee was constructed; in
particular all chief edges point strictly backward in creation order and no
employee is its own chief. -/
theorem chief_assigned_before (fake : FakeGen) (amount : Int)
    (departments : List Department) (s : St) :
    ∀ i, ∀ hi : i < (get_random_employees fake amount departments s).1.length,
      ∀ c, (get_random_employees fake amount departments s).1[i].chief = some c →
      (∃ j, ∃ hj : j < (get_random_employees fake amount departments s).1.length,
          j < i ∧ (get_random_employees fake amount departments s).1[j] = c ∧
          c.id.isSome) ∧
      c ≠ (get_random_employees fake amount departments s).1[i] := by
  intro i hi c hc
  have hg := get_random_employees_good fake amount departments s
  obtain ⟨hid, _, _, hch⟩ := hg i hi
  obtain ⟨j, hj, hji, hjc⟩ := hch c hc
  have hcid : c.id = some (s.db.empNext + j) := by
    rw [← hjc]
    exact (hg j hj).1
  refine ⟨⟨j, hj, hji, hjc, by rw [hcid]; rfl⟩, ?_⟩
  intro heq
  rw [heq, hid] at hcid
  have := Option.some.inj hcid
  omega

/-- Witness for C1 at a concrete two-employee run. -/
theorem chief_assigned_before_witness :
    (∃ j, ∃ hj : j < wEs.length, j < 1 ∧ wEs[j] = wChief ∧ wChief.id.isSome) ∧
      wChief ≠ wEs.get ⟨1, by decide⟩ :=
  chief_assigned_before wFake 2 wDeps wSt 1 (by decide) wChief rfl

/-- C2: in each generator iteration the constructed employee's chief is
selected by `chiefPos`/`chiefOf`: with no employees generated yet the chief is
absent; otherwise the position is a `randint` over the inclusive range
`[-1, count - 1]`, `-1` maps to "no chief", a nonnegative `p` maps to the
`p`-th previously generated employee, and (uniformity) each outcome of that
range is hit by exactly one of the `count + 1` equally likely raw residues. -/
theorem chief_selection_policy (fake : FakeGen) (departments : List Department)
    (employees : List Employee) (s : St) :
    ((stepEmployee fake departments employees s).1.chief =
        chiefOf employees
          (chiefPos employees
            ((randint 0 ((departments.length : Int) - 1) s.rand).2)).1) ∧
    (employees = [] → (stepEmployee fake departments employees s).1.chief = none) ∧
    (∀ r : PyRand, employees ≠ [] →
        -1 ≤ (chiefPos employees r).1 ∧
          (chiefPos employees r).1 ≤ (employees.length : Int) - 1) ∧
    (∀ p : Int, p = -1 → chiefOf employees p = none) ∧
    (∀ p : Int, 0 ≤ p → ∀ h : p.toNat < employees.length,
        chiefOf employees p = some employees[p.toNat]) ∧
    (∀ t : Int, -1 ≤ t → t ≤ (employees.length : Int) - 1 → employees ≠ [] →
        ∃! v : Nat, v < employees.length + 1 ∧
          (chiefPos employees { stream := fun _ => v, pos := 0 }).1 = t) := by
  have key : ∀ v : Nat, employees ≠ [] →
      (chiefPos employees { stream := fun _ => v, pos := 0 }).1 =
        -1 + ((v % (employees.length + 1) : Nat) : Int) := by
    intro v hne
    have hlen : 0 < employees.length := List.length_pos.mpr hne
    unfold chiefPos
    rw [if_pos hlen]
    simp only [randint]
    have hmod : ((employees.length : Int) - 1 - -1 + 1).toNat =
        employees.length + 1 := by omega
    rw [hmod]
  refine ⟨rfl, ?_, ?_, ?_, ?_, ?_⟩
  · intro h
    subst h
    exact stepEmployee_chief_nil fake departments s
  · intro r hne
    exact chiefPos_range employees r hne
  · intro p hp
    exact chiefOf_neg_one employees p hp
  · intro p hp h
    exact chiefOf_nonneg employees p hp h
  · intro t h1 h2 hne
    have hlen : 0 < employees.length := List.length_pos.mpr hne
    refine ⟨(t + 1).toNat, ⟨by omega, ?_⟩, ?_⟩
    · rw [key _ hne, Nat.mod_eq_of_lt (by omega)]
      omega
    · intro v hv
      obtain ⟨hv1, hv2⟩ := hv
      rw [key _ hne, Nat.mod_eq_of_lt hv1] at hv2
      omega

/-- Witness for C2 at concrete inputs. -/
theorem chief_selection_policy_witness :
    (stepEmployee wFake wDeps [] wSt).1.chief = none ∧
    chiefOf [wChief] (-1) = none ∧
    chiefOf [wChief] 0 = some wChief ∧
    (∃! v : Nat, v < 2 ∧
      (chiefPos [wChief] { stream := fun _ => v, pos := 0 }).1 = 0) :=
  ⟨(chief_selection_policy wFake wDeps [] wSt).2.1 rfl,
   (chief_selection_policy wFake wDeps [wChief] wSt).2.2.2.1 (-1) rfl,
   (chief_selection_policy wFake wDeps [wChief] wSt).2.2.2.2.1 0 (by decide)
     (by decide),
   (chief_selection_policy wFake wDeps [wChief] wSt).2.2.2.2.2 0 (by decide)
     (by decide) (List.cons_ne_nil _ _)⟩

/-- C3 counterexample: the claim says the salary `100001` is never produced,
but `random.randint(20000, 100001)` is inclusive of both endpoints: with raw
draw `80001` the generated employee's salary is exactly `100001`. -/
theorem salary_100001_produced :
    ((get_random_employees wFake 1 wDeps cSt).1.getD 0 employeeDefault).salary =
      100001 := by decide

/-- C3 (amended): every generated salary is drawn by
`random.randint(20000, 100001)`, uniformly over the INCLUSIVE range
`[20000, 100001]`: every generated salary `s` satisfies
`20000 ≤ s ≤ 100001`, and every value of that range (including `100001`) is a
possible outcome. -/
theorem salary_uniform_inclusive (fake : FakeGen) (amount : Int)
    (departments : List Department) (s : St) :
    (∀ e ∈ (get_random_employees fake amount departments s).1,
        20000 ≤ e.salary ∧ e.salary ≤ 100001) ∧
    (∀ acc : List Employee, (stepEmployee fake departments acc s).1.salary =
        (randint 20000 100001
          (chiefPos acc
            ((randint 0 ((departments.length : Int) - 1) s.rand).2)).2).1) ∧
    (∀ t : Int, 20000 ≤ t → t ≤ 100001 →
        ∃ r : PyRand, (randint 20000 100001 r).1 = t) := by
  refine ⟨?_, ?_, ?_⟩
  · intro e he
    obtain ⟨i, hi, hie⟩ := List.mem_iff_getElem.mp he
    have hg := get_random_employees_good fake amount departments s
    obtain ⟨_, _, hsal, _⟩ := hg i hi
    rw [← hie]
    exact hsal
  · intro acc
    exact stepEmployee_salary fake departments acc s
  · intro t h1 h2
    exact randint_surj 20000 100001 t h1 h2

/-- Witness for C3's amended theorem at a concrete run. -/
theorem salary_uniform_inclusive_witness :
    (20000 ≤ wChief.salary ∧ wChief.salary ≤ 100001) ∧
    ∃ r : PyRand, (randint 20000 100001 r).1 = 100001 :=
  ⟨(salary_uniform_inclusive wFake 2 wDeps wSt).1 wChief
      (by
        have h : (0 : Nat) < wEs.length := by decide
        exact List.getElem_mem h),
   (salary_uniform_inclusive wFake 2 wDeps wSt).2.2 100001 (by decide) (by decide)⟩

@[simp] theorem Employee.id_withId (e : Employee) (x : Option Nat) :
    (e.withId x).id = x := by
  cases e
  rfl

/-- C4 counterexample: the 4-character name `"a  b"` is at most 100 characters
long yet is NOT stored unchanged: `textwrap.shorten` first collapses the
whitespace run, so the constructor stores `"a b"`. -/
theorem short_name_not_stored_unchanged :
    ("a  b".length ≤ 100) ∧ (Department.init "a  b" wSt).1.name = "a b" ∧
      (Department.init "a  b" wSt).1.name ≠ "a  b" := by decide

/-- C4 (amended): both constructors store `shorten name 100`, which first
collapses whitespace runs to single spaces (dropping leading/trailing
whitespace); the stored name never exceeds 100 characters and is a prefix of
the whitespace-collapsed input (so no truncation marker is appended); an input
of at most 100 characters is stored unchanged exactly when it is already
whitespace-collapsed, and is stored as its collapsed form otherwise. -/
theorem name_truncation (name : String) (s : St) (department : Department)
    (chief : Option Employee) (salary : Int) :
    ((Department.init name s).1.name = shorten name 100) ∧
    ((Employee.init department chief name salary s).1.name = shorten name 100) ∧
    ((shorten name 100).length ≤ 100) ∧
    (∃ t, joinWords (pyWords name) = shorten name 100 ++ t) ∧
    (joinWords (pyWords name) = name → name.length ≤ 100 →
      shorten name 100 = name) :=
  ⟨rfl, rfl, shorten_length name 100, shorten_prefix name 100,
    shorten_of_normalized name 100⟩

/-- Witness for C4's amended theorem: an already-collapsed short name is kept. -/
theorem name_truncation_witness : shorten "a b" 100 = "a b" :=
  (name_truncation "a b" wSt departmentDefault none 0).2.2.2.2 (by decide)
    (by decide)

/-- C5: the first `save` of a transient entity (id none) performs an insert
and assigns a non-null identity; a second `save` of the now-persistent entity
(fields possibly changed) performs an update keyed by that identity, leaves
the entity and the identity counters unchanged, and appends no insert. -/
theorem save_roundtrip :
    (∀ (d : Department) (s : St), d.id = none →
      ∃ i, (Department.save d s).1.id = some i ∧
        (Department.save d s).2.trace = s.trace ++
          [DbOp.insertDepartment d.name, DbOp.selectIdentity, DbOp.commit] ∧
        ∀ (d2 : Department) (s2 : St), d2.id = some i →
          (Department.save d2 s2).1 = d2 ∧
          (Department.save d2 s2).2.db = s2.db ∧
          (Department.save d2 s2).2.trace = s2.trace ++
            [DbOp.updateDepartment d2.name i, DbOp.commit]) ∧
    (∀ (e : Employee) (s : St), e.id = none →
      ∃ i, (Employee.save e s).1.id = some i ∧
        (Employee.save e s).2.trace = s.trace ++
          [DbOp.insertEmployee e.department.id (chiefIdOf e.chief) e.name e.salary,
           DbOp.selectIdentity, DbOp.commit] ∧
        ∀ (e2 : Employee) (s2 : St), e2.id = some i →
          (Employee.save e2 s2).1 = e2 ∧
          (Employee.save e2 s2).2.db = s2.db ∧
          (Employee.save e2 s2).2.trace = s2.trace ++
            [DbOp.updateEmployee e2.department.id (chiefIdOf e2.chief) e2.name
              e2.salary i, DbOp.commit]) := by
  constructor
  · intro d s hd
    refine ⟨s.db.deptNext, ?_, ?_, ?_⟩
    · simp [Department.save, hd]
    · simp [Department.save, hd]
    · intro d2 s2 h2
      refine ⟨?_, ?_, ?_⟩ <;> simp [Department.save, h2]
  · intro e s he
    refine ⟨s.db.empNext, ?_, ?_, ?_⟩
    · simp [Employee.save, he]
    · simp [Employee.save, he]
    · intro e2 s2 h2
      refine ⟨?_, ?_, ?_⟩ <;> simp [Employee.save, h2]

/-- Witness for C5 at a concrete transient department. -/
theorem save_roundtrip_witness :
    ∃ i, (Department.save { name := "n", id := none } wSt).1.id = some i ∧
      (Department.save { name := "x", id := some i } wSt).1 =
        { name := "x", id := some i } := by
  obtain ⟨i, h1, _, h3⟩ := save_roundtrip.1 { name := "n", id := none } wSt rfl
  exact ⟨i, h1, (h3 { name := "x", id := some i } wSt rfl).1⟩

/-- C6: every employee produced by the seeding pipeline references one of the
previously generated departments, whose identity is already assigned (not
null) at the moment the employee is saved. -/
theorem department_persisted_first (fake : FakeGen) (da ea : Int) (s : St) :
    ∀ e ∈ (create_fake_data fake da ea s).1.2,
      e.department ∈ (create_fake_data fake da ea s).1.1 ∧
        e.department.id.isSome := by
  intro e he
  have hg := get_random_employees_good fake ea (get_random_departments fake da s).1
    (get_random_departments fake da s).2
  obtain ⟨i, hi, hie⟩ := List.mem_iff_getElem.mp he
  obtain ⟨_, hdept, _, _⟩ := hg i hi
  rw [← hie]
  exact ⟨hdept, get_random_departments_some fake da s _ hdept⟩

/-- Witness for C6 at a concrete one-department, one-employee run. -/
theorem department_persisted_first_witness :
    ((create_fake_data wFake 1 1 wSt).1.2.getD 0 employeeDefault).department ∈
        (create_fake_data wFake 1 1 wSt).1.1 ∧
      ((create_fake_data wFake 1 1 wSt).1.2.getD 0
          employeeDefault).department.id.isSome :=
  department_persisted_first wFake 1 1 wSt _
    (by
      have h : (0 : Nat) < (create_fake_data wFake 1 1 wSt).1.2.length := by decide
      exact List.getElem_mem h)

/-- C7: a department count of `0`, and any employee count with an empty
departments list, return an empty ordered collection and leave the program
state (in particular the persistence trace) unchanged: no insert, update or
commit is issued. -/
theorem empty_generation (fake : FakeGen) (s : St) :
    get_random_departments fake 0 s = ([], s) ∧
    ∀ amount : Int, get_random_employees fake amount [] s = ([], s) :=
  ⟨rfl, fun _ => rfl⟩

/-- C8: schema reset attempts to drop the employee table then the department
table, in that order; a failure of either drop is caught, logged as a warning
and never propagated; afterwards the department table and then the employee
table are created unconditionally; a create failure (like any unhandled
insert/update failure in `save`) is surfaced unmodified to the caller and
aborts the rest; and no operation is ever attempted more than once (no
retry). -/
theorem schema_reset_policy (o : Oracle) :
    ((create_tables o).2 = match o.createDepartment with
        | some m => some m
        | none => o.createEmployee) ∧
    (∀ m, Event.warned m ∈ (create_tables o).1 ↔
        o.dropEmployee = some m ∨ o.dropDepartment = some m) ∧
    ((create_tables o).1.count (Event.attempted TableOp.dropEmployeeTable) = 1) ∧
    ((create_tables o).1.count (Event.attempted TableOp.dropDepartmentTable) = 1) ∧
    ((create_tables o).1.count (Event.attempted TableOp.createDepartmentTable) = 1) ∧
    ((create_tables o).1.count (Event.attempted TableOp.createEmployeeTable) =
        if o.createDepartment = none then 1 else 0) ∧
    List.Sublist [Event.attempted TableOp.dropEmployeeTable,
        Event.attempted TableOp.dropDepartmentTable,
        Event.attempted TableOp.createDepartmentTable] (create_tables o).1 ∧
    (o.createDepartment = none →
      List.Sublist [Event.attempted TableOp.dropEmployeeTable,
        Event.attempted TableOp.dropDepartmentTable,
        Event.attempted TableOp.createDepartmentTable,
        Event.attempted TableOp.createEmployeeTable] (create_tables o).1) ∧
    (∀ m d s, Department.saveF (some m) d s = Except.error m) ∧
    (∀ m e s, Employee.saveF (some m) e s = Except.error m) := by
  refine ⟨?_, ?_, ?_, ?_, ?_, ?_, ?_, ?_, fun _ _ _ => rfl, fun _ _ _ => rfl⟩
  · rcases o with ⟨de, dd, cd, ce⟩
    cases cd <;> cases ce <;> simp [create_tables]
  · intro m
    rcases o with ⟨de, dd, cd, ce⟩
    cases de <;> cases dd <;> cases cd <;> cases ce <;>
      simp [create_tables, warnOf, eq_comm]
  · rcases o with ⟨de, dd, cd, ce⟩
    cases de <;> cases dd <;> cases cd <;> cases ce <;>
      simp [create_tables, warnOf, List.count_cons, List.count_nil]
  · rcases o with ⟨de, dd, cd, ce⟩
    cases de <;> cases dd <;> cases cd <;> cases ce <;>
      simp [create_tables, warnOf, List.count_cons, List.count_nil]
  · rcases o with ⟨de, dd, cd, ce⟩
    cases de <;> cases dd <;> cases cd <;> cases ce <;>
      simp [create_tables, warnOf, List.count_cons, List.count_nil]
  · rcases o with ⟨de, dd, cd, ce⟩
    cases de <;> cases dd <;> cases cd <;> cases ce <;>
      simp [create_tables, warnOf, List.count_cons, List.count_nil]
  · rcases o with ⟨de, dd, cd, ce⟩
    cases de <;> cases dd <;> cases cd <;> cases ce <;>
      simp only [create_tables, warnOf, List.append_assoc, List.cons_append,
        List.nil_append] <;>
      (repeat first
        | exact List.nil_sublist _
        | apply List.Sublist.cons₂
        | apply List.Sublist.cons)
  · intro h
    rcases o with ⟨de, dd, cd, ce⟩
    simp only at h
    subst h
    cases de <;> cases dd <;> cases ce <;>
      simp only [create_tables, warnOf, List.append_assoc, List.cons_append,
        List.nil_append] <;>
      (repeat first
        | exact List.nil_sublist _
        | apply List.Sublist.cons₂
        | apply List.Sublist.cons)

/-- Fully failing drops, for the C8 witness. -/
def wOracle : Oracle :=
  { dropEmployee := some "no employee table",
    dropDepartment := some "no department table",
    createDepartment := none, createEmployee := none }

/-- Witness for C8: both drops fail, yet nothing propagates, both warnings are
logged, all four operations run once, in order. -/
theorem schema_reset_policy_witness :
    (create_tables wOracle).2 = none ∧
    Event.warned "no employee table" ∈ (create_tables wOracle).1 ∧
    Event.warned "no department table" ∈ (create_tables wOracle).1 ∧
    (create_tables wOracle).1.count (Event.attempted TableOp.createEmployeeTable)
      = 1 ∧
    List.Sublist [Event.attempted TableOp.dropEmployeeTable,
      Event.attempted TableOp.dropDepartmentTable,
      Event.attempted TableOp.createDepartmentTable,
      Event.attempted TableOp.createEmployeeTable] (create_tables wOracle).1 := by
  obtain ⟨h1, h2, _, _, _, h6, _, h8, _, _⟩ := schema_reset_policy wOracle
  refine ⟨h1, ?_, ?_, ?_, h8 rfl⟩
  · exact (h2 "no employee table").mpr (Or.inl rfl)
  · exact (h2 "no department table").mpr (Or.inr rfl)
  · simpa using h6

/-- C9: with the seeded, hence deterministic, fake-data collaborator, two runs
of the seeding pipeline with identical amounts and equal fake-data call
counters produce identical department-name and employee-name sequences,
whatever their `random` streams and database states are. -/
theorem seeded_runs_reproducible (fake : FakeGen) (da ea : Int) (s s' : St)
    (hn : s.names = s'.names) (hp : s.phrases = s'.phrases) :
    (create_fake_data fake da ea s).1.1.map Department.name =
        (create_fake_data fake da ea s').1.1.map Department.name ∧
    (create_fake_data fake da ea s).1.2.map Employee.name =
        (create_fake_data fake da ea s').1.2.map Employee.name := by
  constructor
  · show (get_random_departments fake da s).1.map Department.name =
      (get_random_departments fake da s').1.map Department.name
    rw [get_random_departments_names, get_random_departments_names, hp]
  · show (get_random_employees fake ea (get_random_departments fake da s).1
        (get_random_departments fake da s).2).1.map Employee.name =
      (get_random_employees fake ea (get_random_departments fake da s').1
        (get_random_departments fake da s').2).1.map Employee.name
    unfold get_random_employees
    have hlen : (get_random_departments fake da s).1.length =
        (get_random_departments fake da s').1.length := by
      rw [get_random_departments_length, get_random_departments_length]
    by_cases hc : (get_random_departments fake da s).1.length < 1
    · rw [if_pos hc, if_pos (by omega)]
    · rw [if_neg hc, if_neg (by omega)]
      rw [employees_loop_names, employees_loop_names]
      simp [get_random_departments_snd_names, hn]

/-- A start state differing from `wSt` in its `random` stream and database
counters, for the C9 witness. -/
def wSt2 : St :=
  { db := { deptNext := 7, empNext := 9 },
    rand := { stream := fun _ => 3, pos := 0 },
    names := 0, phrases := 0, trace := [] }

/-- Witness for C9: two concrete runs with different streams, same names. -/
theorem seeded_runs_reproducible_witness :
    (create_fake_data wFake 1 2 wSt).1.1.map Department.name =
        (create_fake_data wFake 1 2 wSt2).1.1.map Department.name ∧
    (create_fake_data wFake 1 2 wSt).1.2.map Employee.name =
        (create_fake_data wFake 1 2 wSt2).1.2.map Employee.name :=
  seeded_runs_reproducible wFake 1 2 wSt wSt2 rfl rfl

/-- C10: for every negative count both generators return an empty list without
raising, leaving the state (and so the persistence trace) unchanged — negative
counts are silently treated like zero. -/
theorem negative_amounts (fake : FakeGen) (amount : Int)
    (departments : List Department) (s : St) (h : amount < 0) :
    get_random_departments fake amount s = ([], s) ∧
    get_random_employees fake amount departments s = ([], s) := by
  have ht : amount.toNat = 0 := Int.toNat_of_nonpos h.le
  constructor
  · unfold get_random_departments
    rw [ht]
    rfl
  · unfold get_random_employees
    split
    · rfl
    · rw [ht]
      rfl

/-- Witness for C10 at count `-5` with a non-empty departments list. -/
theorem negative_amounts_witness :
    get_random_departments wFake (-5) wSt = ([], wSt) ∧
    get_random_employees wFake (-5) wDeps wSt = ([], wSt) :=
  negative_amounts wFake (-5) wDeps wSt (by decide)

end ODBC
